import Mathlib

/-!
Shallow embedding of the tracking core of the detectorr-face repository
(Python), together with theorems checking its natural-language
specification.

Conventions of the embedding:
* Python floats are modelled as exact rationals (`ℚ`); the frontal-face
  scorer, whose source computes a Euclidean distance with `math.dist`
  (a real square root), is modelled over `ℝ`.
* Fallible Python code (constructors raising `TypeError`/`ValueError`,
  queue operations raising `queue.Full`) returns `Except`/`Option`.
* Mutation is modelled by explicit state passing: methods on an entity
  take the entity and return the updated entity.
* Python dictionaries are modelled as key-unique association lists.
-/

/-- A dynamically-typed Python scalar, as far as the registry's and the
entity constructors' `isinstance`/truthiness checks can observe it:
an integer or a string.  `camera_id` keys and `track_id` arguments
are passed as such values in the source. -/
inductive PyVal where
  | int (n : ℤ)
  | str (s : String)
deriving DecidableEq, Repr

namespace PyVal

/-- Python truthiness for the modelled scalars: `0` and `""` are falsy,
everything else is truthy (`if not camera_id:` in the source). -/
def truthy : PyVal → Bool
  | int n => n ≠ 0
  | str s => s ≠ ""

/-- Models `isinstance(x, int)`. -/
def isInt : PyVal → Bool
  | int _ => true
  | str _ => false

/-- The integer payload, defaulting to `0` for non-integers. -/
def toIntD : PyVal → ℤ
  | int n => n
  | str _ => 0

end PyVal

/-- Embeds `BboxVO` (source file absent from the tree; the spec describes
it as a 4-tuple `(x1, y1, x2, y2)` of integer pixels with `x1 < x2`,
`y1 < y2`).  Only the stored values matter for the claims below. -/
structure BboxVO where
  x1 : ℤ
  y1 : ℤ
  x2 : ℤ
  y2 : ℤ
deriving DecidableEq, Repr

/-- Bbox area as computed at the call sites: `(x2 - x1) * (y2 - y1)`. -/
def BboxVO.area (b : BboxVO) : ℤ :=
  (b.x2 - b.x1) * (b.y2 - b.y1)

/-- One facial keypoint `(x, y, confidence)` as stored by
`FaceLandmarksVO` (floats in the source, exact rationals here). -/
abbrev Keypoint := ℚ × ℚ × ℚ

/-- Embeds `FaceLandmarksVO`: after `__init__` validation the object
always holds exactly five keypoints, one per named accessor. -/
structure FaceLandmarksVO where
  left_eye : Keypoint
  right_eye : Keypoint
  nose : Keypoint
  left_mouth : Keypoint
  right_mouth : Keypoint
deriving DecidableEq, Repr

namespace FaceLandmarksVO

/-- Embeds `FaceLandmarksVO.__init__`: the argument must be a sequence of
exactly `EXPECTED_COUNT = 5` landmarks, otherwise `ValueError` is raised
(`Esperados 5 landmarks, recebidos: n`).  The per-landmark structure and
numeric checks are enforced by the `Keypoint` type here. -/
def init (landmarks : List Keypoint) : Except String FaceLandmarksVO :=
  if h : landmarks.length = 5 then
    .ok { left_eye := landmarks[0], right_eye := landmarks[1],
          nose := landmarks[2], left_mouth := landmarks[3],
          right_mouth := landmarks[4] }
  else
    .error "ValueError: Esperados 5 landmarks"

end FaceLandmarksVO

/-- Embeds the `Frame` entity, restricted to the attributes the claims
exercise: the capture timestamp (modelled as a rational number of
seconds) and the parallel per-detection arrays built by
`_create_frame_from_results`. -/
structure Frame where
  timestamp : ℚ
  bboxes : List BboxVO := []
  landmarks : List FaceLandmarksVO := []
  track_ids : List ℤ := []
  confidences : List ℚ := []
  classes : List ℤ := []
deriving DecidableEq, Repr

/-- Embeds the `Event` entity.  `frame` is an `Option` because
`remove_frame()` sets the back-reference to `None`.  `movement` models
the `_movement` attribute attached dynamically by
`FinishTrackService.finish_track`; `getattr(event, '_movement', False)`
reads it back with default `False`, hence the `Bool` with default. -/
structure Event where
  frame : Option Frame
  bbox : BboxVO
  confidence : ℚ
  landmarks : FaceLandmarksVO
  track_id : ℤ
  face_quality_score : Option ℚ := none
  class_id : Option ℤ := none
  movement : Bool := false
deriving DecidableEq, Repr

namespace Event

/-- Embeds `Event.__init__`.  The source validates only the dynamic
types of its arguments (`isinstance` checks); every typed argument here
passes those by construction, and `track_id` is kept dynamic to show the
check that the source actually performs: `isinstance(track_id, int)`.
There is no check on the value of `track_id`. -/
def init (frame : Frame) (bbox : BboxVO) (confidence : ℚ)
    (landmarks : FaceLandmarksVO) (track_id : PyVal)
    (face_quality_score : Option ℚ := none) (class_id : Option ℤ := none) :
    Except String Event :=
  if ¬track_id.isInt then
    .error "TypeError: track_id deve ser int"
  else
    .ok { frame := some frame, bbox := bbox, confidence := confidence,
          landmarks := landmarks, track_id := track_id.toIntD,
          face_quality_score := face_quality_score, class_id := class_id }

/-- Embeds `Event.remove_frame`: drops the frame back-reference. -/
def remove_frame (e : Event) : Event :=
  { e with frame := none }

/-- The quality expression used by `Track.add_event` (and `__repr__`):
`face_quality_score.value() if face_quality_score is not None else
confidence.value()`. -/
def quality (e : Event) : ℚ :=
  e.face_quality_score.getD e.confidence

end Event

/-- Embeds the `Track` entity (the fields of `Track.__init__`;
`started_at` is the construction-time clock reading, passed explicitly
here). -/
structure Track where
  id : ℤ
  best_event : Option Event := none
  event_count : ℤ := 0
  movement_count : ℤ := 0
  max_events : ℤ
  min_movement_pixels : ℚ
  ttl : ℤ
  started_at : ℚ
  last_seen_frame_timestamp : Option ℚ := none
deriving DecidableEq, Repr

namespace Track

/-- Embeds `Track.__init__`: `max_events`, `min_movement_pixels` and
`ttl` must be positive, otherwise `TypeError` is raised. -/
def init (id : ℤ) (max_events : ℤ := 300) (min_movement_pixels : ℚ := 2)
    (ttl : ℤ := 3) (now : ℚ := 0) : Except String Track :=
  if max_events ≤ 0 then
    .error "TypeError: max_events deve ser int positivo"
  else if min_movement_pixels ≤ 0 then
    .error "TypeError: min_movement_pixels deve ser float/int positivo"
  else if ttl ≤ 0 then
    .error "TypeError: ttl deve ser int positivo"
  else
    .ok { id := id, max_events := max_events,
          min_movement_pixels := min_movement_pixels, ttl := ttl,
          started_at := now }

/-- Embeds the `Track.is_empty` property. -/
def is_empty (t : Track) : Bool :=
  t.event_count = 0

/-- Embeds the `Track.has_movement` property: `False` with no events,
`True` with exactly one event, otherwise `movement_count > 0`. -/
def has_movement (t : Track) : Bool :=
  if t.event_count = 0 then false
  else if t.event_count = 1 then true
  else t.movement_count > 0

/-- Embeds `Track.add_event`.  The source first dereferences
`event.frame.timestamp` (so an event whose frame was removed raises,
modelled by `none`), stores it as `last_seen_frame_timestamp`, returns
early when saturated (`event_count >= max_events`), handles the first
event, and otherwise increments `event_count` and replaces `best_event`
when the new quality is strictly greater (releasing the old best
event's frame).  No branch of the source mutates `movement_count`
except the first-event branch, which sets it to `0`. -/
def add_event (t : Track) (event : Event) : Option Track :=
  match event.frame with
  | none => none
  | some f =>
    let t := { t with last_seen_frame_timestamp := some f.timestamp }
    if t.max_events ≤ t.event_count then
      some t
    else if t.is_empty then
      some { t with best_event := some event, event_count := 1,
                    movement_count := 0 }
    else
      let t := { t with event_count := t.event_count + 1 }
      match t.best_event with
      | none => some { t with best_event := some event }
      | some best =>
        if best.quality < event.quality then
          some { t with best_event := some event }
        else
          some t

/-- Folds `add_event` over a list of events, propagating the failure of
any single call. -/
def addEvents (t : Track) : List Event → Option Track
  | [] => some t
  | e :: es => (t.add_event e).bind (fun t1 => t1.addEvents es)

end Track

/-- Embeds the state of `InMemoryTrackRegistry`: the nested
`defaultdict` keyed by camera id and then by track id, as a key-unique
association list over the joint key.  Camera keys are dynamic Python
values (the implementation accepts any truthy key). -/
abbrev Registry := List ((PyVal × ℤ) × Track)

namespace Registry

/-- Embeds `InMemoryTrackRegistry.register`: raises `ValueError` for a
falsy `camera_id`, `TypeError` for a non-integer `track_id`, and
otherwise inserts or overwrites the entry — unconditionally, with no
capacity limit. -/
def register (r : Registry) (camera_id : PyVal) (track_id : PyVal)
    (track : Track) : Except String Registry :=
  if ¬camera_id.truthy then
    .error "ValueError: camera_id nao pode ser vazio ou None"
  else if ¬track_id.isInt then
    .error "TypeError: track_id deve ser inteiro"
  else
    .ok (((camera_id, track_id.toIntD), track) ::
      r.filter (fun entry => entry.1 ≠ (camera_id, track_id.toIntD)))

/-- Embeds `InMemoryTrackRegistry.get`: lookup returning `None` when
missing. -/
def get (r : Registry) (camera_id : PyVal) (track_id : ℤ) : Option Track :=
  (r.find? (fun entry => entry.1 = (camera_id, track_id))).map (·.2)

/-- Embeds `InMemoryTrackRegistry.remove`: idempotent deletion. -/
def remove (r : Registry) (camera_id : PyVal) (track_id : ℤ) : Registry :=
  r.filter (fun entry => entry.1 ≠ (camera_id, track_id))

end Registry

/-- Combined state acted on by `FinishTrackService`: the shared track
registry and the `BestEventQueue` (a `queue.Queue` of events; `maxsize
<= 0` means unbounded, and the queue is full when it holds `maxsize`
items). -/
structure FinishState where
  registry : Registry
  queue : List Event := []
  maxsize : ℤ := 1000
deriving DecidableEq

namespace FinishState

/-- Embeds `queue.Queue.full()` for the best-event queue. -/
def queueFull (st : FinishState) : Bool :=
  0 < st.maxsize ∧ st.maxsize ≤ (st.queue.length : ℤ)

end FinishState

/-- Models Python's `str.strip()`: drops whitespace from both ends
(structurally, so that concrete instances compute). -/
def pyStrip (s : String) : String :=
  String.mk
    (((s.data.dropWhile Char.isWhitespace).reverse.dropWhile
        Char.isWhitespace).reverse)

/-- Embeds `FinishTrackService.finish_track`.  Under the service lock it
looks the track up (returning silently when absent), removes it, and —
outside the lock — attaches the track's `has_movement` flag to the best
event and `put_nowait`s it.  When the queue is full the `queue.Full`
exception is caught and the event is discarded; the frame-release code
in that branch is commented out in the source, so the dropped event is
returned here unchanged (second component) to make that observable.
`reason` must be a non-blank string or `TypeError` is raised. -/
def finish_track (st : FinishState) (camera_id : ℤ) (track_id : ℤ)
    (reason : String) : Except String (FinishState × Option Event) :=
  if pyStrip reason = "" then
    .error "TypeError: reason deve ser string nao-vazia"
  else
    match st.registry.get (.int camera_id) track_id with
    | none => .ok (st, none)
    | some track =>
      match track.best_event with
      | none =>
        .ok ({ st with registry := st.registry.remove (.int camera_id) track_id },
             none)
      | some best_event =>
        let registry := st.registry.remove (.int camera_id) track_id
        let best_event := { best_event with movement := track.has_movement }
        if st.queueFull then
          .ok ({ st with registry := registry }, some best_event)
        else
          .ok ({ st with registry := registry,
                         queue := st.queue ++ [best_event] }, none)

/-- The filter configuration read from settings by the dispatch worker
and the streaming pipeline (`filter.min_box_area`,
`filter.min_box_conf`). -/
structure FilterCfg where
  min_box_area : ℚ := 1000
  min_box_conf : ℚ := mkRat 1 2
deriving DecidableEq

/-- Embeds the filter-and-submit logic of
`ProcessBestEventQueueUseCase._process_best_event`: the result is
`true` exactly when the synchronous backend call
(`findface_adapter.send_event`) is reached.  The source drops the event
(returns without calling the backend) when
`bbox_area < min_box_area or confidence < min_box_conf or not
movement_flag`, and otherwise calls the backend iff an adapter is
configured. -/
def process_best_event (cfg : FilterCfg) (adapterPresent : Bool)
    (event : Event) : Bool :=
  let bbox_area : ℚ := (event.bbox.area : ℚ)
  let movement_flag := event.movement
  if bbox_area < cfg.min_box_area ∨ event.confidence < cfg.min_box_conf ∨
      ¬movement_flag then
    false
  else
    adapterPresent

/-- Embeds the per-detection body of
`ProcessCameraStreamingUseCase._process_detections_and_tracks`:
fetch the track id (falling back to the detection index), skip the
detection when `track_id == 0`, read confidence and landmarks (an
out-of-range landmark index raises inside the per-detection
`try/except` and the detection is skipped), compute the frontal score,
apply the area/confidence admission filters, and construct the `Event`.
The frontal-face scorer is passed as a parameter (`score`); the source
always calls `FrontalFaceScoreService.calculate` there, but its value
is irrelevant to the constructed event's identity fields. -/
def process_detection (cfg : FilterCfg) (score : FaceLandmarksVO → ℚ)
    (frame : Frame) (idx : ℕ) : Option Event :=
  match frame.bboxes[idx]? with
  | none => none
  | some bbox =>
    let track_id := frame.track_ids.getD idx (idx : ℤ)
    if track_id = 0 then none
    else
      let confidence := frame.confidences.getD idx 0
      match frame.landmarks[idx]? with
      | none => none
      | some landmarks =>
        let frontal_score := score landmarks
        let class_id := frame.classes[idx]?
        if (bbox.area : ℚ) < cfg.min_box_area ∨ confidence < cfg.min_box_conf then
          none
        else
          some { frame := some frame, bbox := bbox, confidence := confidence,
                 landmarks := landmarks, track_id := track_id,
                 face_quality_score := some frontal_score,
                 class_id := class_id }

/-- All events constructed from one frame by
`_process_detections_and_tracks`. -/
def process_detections (cfg : FilterCfg) (score : FaceLandmarksVO → ℚ)
    (frame : Frame) : List Event :=
  (List.range frame.bboxes.length).filterMap (process_detection cfg score frame)

namespace FrontalFaceScoreService

/-- Embeds `VERTICAL_RATIO_MIN`. -/
def VERTICAL_RATIO_MIN : ℝ := 0.35

/-- Embeds `VERTICAL_RATIO_MAX`. -/
def VERTICAL_RATIO_MAX : ℝ := 0.75

/-- Embeds `_calculate_distance` (`math.dist`, the Euclidean distance);
landmark coordinates are rational, the distance is real. -/
noncomputable def calculate_distance (p1 p2 : ℚ × ℚ) : ℝ :=
  Real.sqrt (((p1.1 : ℝ) - (p2.1 : ℝ)) ^ 2 + ((p1.2 : ℝ) - (p2.2 : ℝ)) ^ 2)

/-- Embeds `_calculate_symmetry`:
`max(0.0, 1.0 - abs(x_n - (x_le + x_re)/2) / eye_dist)`. -/
noncomputable def calculate_symmetry (x_le x_re x_n : ℚ) (eye_dist : ℝ) : ℝ :=
  let eye_center_x : ℝ := ((x_le : ℝ) + (x_re : ℝ)) / 2
  let nose_offset := |(x_n : ℝ) - eye_center_x| / eye_dist
  max 0 (1 - nose_offset)

/-- Embeds `_calculate_roll`:
`max(0.0, 1.0 - abs(y_le - y_re) / eye_dist)`. -/
noncomputable def calculate_roll (y_le y_re : ℚ) (eye_dist : ℝ) : ℝ :=
  let eye_vertical_diff := |(y_le : ℝ) - (y_re : ℝ)| / eye_dist
  max 0 (1 - eye_vertical_diff)

/-- Embeds `_calculate_vertical`.  Note the first branch: when the
ratio is below `VERTICAL_RATIO_MIN` the source returns
`vertical_ratio / VERTICAL_RATIO_MIN` with no lower clamp, so this
sub-score is negative whenever the mouth center lies above the nose. -/
noncomputable def calculate_vertical (y_n y_lm y_rm : ℚ) (eye_dist : ℝ) : ℝ :=
  let mouth_center_y : ℝ := ((y_lm : ℝ) + (y_rm : ℝ)) / 2
  let vertical_r := (mouth_center_y - (y_n : ℝ)) / eye_dist
  if vertical_r < VERTICAL_RATIO_MIN then
    vertical_r / VERTICAL_RATIO_MIN
  else if vertical_r > VERTICAL_RATIO_MAX then
    max 0 (1 - (vertical_r - VERTICAL_RATIO_MAX))
  else
    1

/-- Embeds `_calculate_mouth_symmetry`:
`max(0.0, 1.0 - abs((x_lm + x_rm)/2 - x_n) / eye_dist)`. -/
noncomputable def calculate_mouth_symmetry (x_lm x_rm x_n : ℚ) (eye_dist : ℝ) : ℝ :=
  let mouth_center_x : ℝ := ((x_lm : ℝ) + (x_rm : ℝ)) / 2
  let mouth_offset := |mouth_center_x - (x_n : ℝ)| / eye_dist
  max 0 (1 - mouth_offset)

/-- The interpupillary distance computed at the top of `calculate`. -/
noncomputable def eye_dist (l : FaceLandmarksVO) : ℝ :=
  calculate_distance (l.left_eye.1, l.left_eye.2.1)
    (l.right_eye.1, l.right_eye.2.1)

/-- Models Python's `round(x, 3)` over exact reals as round-half-up to
the nearest thousandth (the source's binary-float half-to-even rule can
differ only when `1000 * x` is exactly half-integral, which no claim
here depends on). -/
noncomputable def round3 (x : ℝ) : ℝ :=
  ((round (1000 * x) : ℤ) : ℝ) / 1000

/-- Embeds `FrontalFaceScoreService.calculate`: early `0.0` return when
the eye distance is below `1e-6`, then the weighted sum of the four
sub-scores, clamped to `[0, 1]` and rounded to three decimals. -/
noncomputable def calculate (l : FaceLandmarksVO) : ℝ :=
  if eye_dist l < 1e-6 then 0
  else
    let symmetry_score :=
      calculate_symmetry l.left_eye.1 l.right_eye.1 l.nose.1 (eye_dist l)
    let roll_score :=
      calculate_roll l.left_eye.2.1 l.right_eye.2.1 (eye_dist l)
    let vertical_score :=
      calculate_vertical l.nose.2.1 l.left_mouth.2.1 l.right_mouth.2.1
        (eye_dist l)
    let mouth_symmetry_score :=
      calculate_mouth_symmetry l.left_mouth.1 l.right_mouth.1 l.nose.1
        (eye_dist l)
    let score := 0.35 * symmetry_score + 0.25 * roll_score +
      0.20 * vertical_score + 0.20 * mouth_symmetry_score
    round3 (max 0 (min 1 score))

end FrontalFaceScoreService

/-! Concrete fixtures used by witnesses and counterexamples. -/

/-- A frame with no detection arrays, used as the back-reference of
fixture events. -/
def frameA : Frame := { timestamp := 10 }

/-- Well-formed five-keypoint landmarks for fixture events. -/
def lmkA : FaceLandmarksVO :=
  { left_eye := (0, 0, 1), right_eye := (40, 0, 1), nose := (20, 20, 1),
    left_mouth := (10, 30, 1), right_mouth := (30, 30, 1) }

/-- The default filter configuration (`min_box_area = 1000`,
`min_box_conf = 0.5`). -/
def cfgD : FilterCfg := {}

/-- A fixture event over `frameA` with a given bbox and qualities. -/
def mkEvent (bbox : BboxVO) (confidence : ℚ) (q : Option ℚ)
    (track_id : ℤ := 7) : Event :=
  { frame := some frameA, bbox := bbox, confidence := confidence,
    landmarks := lmkA, track_id := track_id, face_quality_score := q }

/-- Claim C6 theorem.  On a saturated track (`event_count >=
max_events`), `add_event` updates `last_seen_frame_timestamp` to the
event's frame timestamp and changes nothing else: the result is the
input track with only that field replaced, so `event_count`,
`movement_count` and `best_event` are untouched. -/
theorem c6_add_event_saturated (t : Track) (e : Event) (f : Frame)
    (hf : e.frame = some f) (hsat : t.max_events ≤ t.event_count) :
    t.add_event e =
      some { t with last_seen_frame_timestamp := some f.timestamp } := by
  simp [Track.add_event, hf, hsat]

/-- Witness for claim C6 at a concrete saturated track. -/
theorem c6_add_event_saturated_witness :
    (mkEvent ⟨0, 0, 50, 50⟩ (mkRat 1 2) none).frame = some frameA ∧
    (3 : ℤ) ≤ 3 ∧
    ({ id := 1, best_event := some (mkEvent ⟨0, 0, 40, 40⟩ (mkRat 1 2) (some (mkRat 3 4))),
       event_count := 3, movement_count := 1, max_events := 3,
       min_movement_pixels := 2, ttl := 3, started_at := 0,
       last_seen_frame_timestamp := some 5 } : Track).add_event
        (mkEvent ⟨0, 0, 50, 50⟩ (mkRat 1 2) none) =
      some { id := 1,
             best_event := some (mkEvent ⟨0, 0, 40, 40⟩ (mkRat 1 2) (some (mkRat 3 4))),
             event_count := 3, movement_count := 1, max_events := 3,
             min_movement_pixels := 2, ttl := 3, started_at := 0,
             last_seen_frame_timestamp := some frameA.timestamp } :=
  ⟨rfl, by decide,
   c6_add_event_saturated _ _ frameA rfl (by decide)⟩

/-- Claim C7 theorem.  A dispatch worker reaches the backend call in
`_process_best_event` only when the event passes all three submission
filters: `area(bbox) >= min_box_area`, `confidence >= min_box_conf`,
and the `_movement` flag is true; contrapositively, an event failing
any filter is dropped without a backend call. -/
theorem c7_dispatch_filter (cfg : FilterCfg) (adapterPresent : Bool)
    (e : Event) (h : process_best_event cfg adapterPresent e = true) :
    cfg.min_box_area ≤ (e.bbox.area : ℚ) ∧
    cfg.min_box_conf ≤ e.confidence ∧ e.movement = true := by
  by_contra hcon
  push_neg at hcon
  rw [process_best_event] at h
  by_cases h1 : (e.bbox.area : ℚ) < cfg.min_box_area
  · simp [h1] at h
  · by_cases h2 : e.confidence < cfg.min_box_conf
    · simp [h2] at h
    · by_cases h3 : e.movement
      · exact absurd (hcon (le_of_not_lt h1) (le_of_not_lt h2)) (by simp [h3])
      · simp [h3] at h

/-- Witness for claim C7: a concrete event that is submitted indeed
passes all three filters. -/
theorem c7_dispatch_filter_witness :
    process_best_event cfgD true
      { mkEvent ⟨0, 0, 50, 50⟩ (mkRat 3 4) none with movement := true } = true ∧
    cfgD.min_box_area ≤
      (({ mkEvent ⟨0, 0, 50, 50⟩ (mkRat 3 4) none with movement := true } :
        Event).bbox.area : ℚ) := by
  refine ⟨rfl, ?_⟩
  exact (c7_dispatch_filter cfgD true
    { mkEvent ⟨0, 0, 50, 50⟩ (mkRat 3 4) none with movement := true } rfl).1

/-- Claim C8 theorem (evidence for the divergence): constructing
`FaceLandmarksVO` from an empty landmark sequence raises `ValueError`
instead of yielding an empty landmarks object, so no quality score
(which the consumers expect to be `0.0`) can be computed from it. -/
theorem c8_empty_landmarks_raise :
    FaceLandmarksVO.init [] = .error "ValueError: Esperados 5 landmarks" := by
  rfl

/-- Claim C9 counterexample: the `Event` constructor accepts
`track_id = 0` — construction is not rejected, so the `track_id ≠ 0`
invariant is not enforced at the entity's public interface. -/
theorem c9_counterexample :
    ∃ e, Event.init frameA ⟨0, 0, 50, 50⟩ (3/4) lmkA (.int 0) none none =
        .ok e ∧ e.track_id = 0 :=
  ⟨_, rfl, rfl⟩

/-- Claim C9 theorem (amended).  The `track_id ≠ 0` invariant is
enforced one layer up: `_process_detections_and_tracks` skips any
detection whose track id is `0`, so every Event it constructs has
`track_id ≠ 0`. -/
theorem c9_pipeline_track_id_ne_zero (cfg : FilterCfg)
    (score : FaceLandmarksVO → ℚ) (frame : Frame) (e : Event)
    (h : e ∈ process_detections cfg score frame) : e.track_id ≠ 0 := by
  rw [process_detections, List.mem_filterMap] at h
  obtain ⟨idx, -, hidx⟩ := h
  simp only [process_detection] at hidx
  split at hidx
  · exact absurd hidx (by simp)
  split at hidx
  · exact absurd hidx (by simp)
  next hz =>
  split at hidx
  · exact absurd hidx (by simp)
  split at hidx
  · exact absurd hidx (by simp)
  obtain rfl := Option.some.inj hidx
  exact hz

/-- A concrete one-detection frame for the claim C9 witness. -/
def frameW9 : Frame :=
  { timestamp := 10, bboxes := [⟨0, 0, 50, 50⟩], landmarks := [lmkA],
    track_ids := [7], confidences := [mkRat 3 4], classes := [] }

/-- The event the pipeline constructs from `frameW9`. -/
def evW9 : Event :=
  { frame := some frameW9, bbox := ⟨0, 0, 50, 50⟩, confidence := mkRat 3 4,
    landmarks := lmkA, track_id := 7, face_quality_score := some 0,
    class_id := none }

/-- Witness for amended claim C9: a concrete frame with one admissible
detection yields an event whose track id is nonzero. -/
theorem c9_pipeline_track_id_ne_zero_witness :
    evW9 ∈ process_detections cfgD (fun _ => 0) frameW9 ∧
    evW9.track_id ≠ 0 := by
  have hm : process_detections cfgD (fun _ => 0) frameW9 = [evW9] := rfl
  have hmem : evW9 ∈ process_detections cfgD (fun _ => 0) frameW9 := by
    rw [hm]; exact List.mem_singleton.mpr rfl
  exact ⟨hmem, c9_pipeline_track_id_ne_zero cfgD (fun _ => 0) frameW9 evW9 hmem⟩

/-- Claim C10 theorem.  `register` raises `ValueError` for every falsy
`camera_id` (in particular the integer `0` and the empty string), and
for any truthy `camera_id` and integer `track_id` the insert succeeds
unconditionally — there is no capacity check. -/
theorem c10_register (r : Registry) (camera_id track_id : PyVal)
    (track : Track) :
    (camera_id.truthy = false →
      Registry.register r camera_id track_id track =
        .error "ValueError: camera_id nao pode ser vazio ou None") ∧
    (camera_id.truthy = true → track_id.isInt = true →
      Registry.register r camera_id track_id track =
        .ok (((camera_id, track_id.toIntD), track) ::
          r.filter (fun entry => entry.1 ≠ (camera_id, track_id.toIntD)))) := by
  constructor
  · intro h
    simp [Registry.register, h]
  · intro h1 h2
    simp [Registry.register, h1, h2]

/-- Witness for claim C10: camera id `0` and camera id `""` are both
rejected on an arbitrary concrete registry, while a truthy camera id
with an integer track id is inserted. -/
theorem c10_register_witness :
    (Registry.register [] (.int 0) (.int 7)
        { id := 7, max_events := 3, min_movement_pixels := 2, ttl := 3,
          started_at := 0 } =
      .error "ValueError: camera_id nao pode ser vazio ou None") ∧
    (Registry.register [] (.str "") (.int 7)
        { id := 7, max_events := 3, min_movement_pixels := 2, ttl := 3,
          started_at := 0 } =
      .error "ValueError: camera_id nao pode ser vazio ou None") ∧
    (Registry.register [] (.int 5) (.int 7)
        { id := 7, max_events := 3, min_movement_pixels := 2, ttl := 3,
          started_at := 0 } =
      .ok [((.int 5, 7), { id := 7, max_events := 3, min_movement_pixels := 2,
                           ttl := 3, started_at := 0 })]) :=
  ⟨(c10_register [] (.int 0) (.int 7) _).1 (by decide),
   (c10_register [] (.str "") (.int 7) _).1 (by decide),
   (c10_register [] (.int 5) (.int 7) _).2 (by decide) (by decide)⟩

/-- Removing a key from the registry makes `get` on that key return
`None`. -/
theorem registry_get_remove (r : Registry) (c : PyVal) (tid : ℤ) :
    (r.remove c tid).get c tid = none := by
  have hfind : (r.remove c tid).find?
      (fun entry => entry.1 = (c, tid)) = none := by
    rw [List.find?_eq_none]
    intro x hx
    rw [Registry.remove, List.mem_filter] at hx
    simpa using hx.2
  rw [Registry.get, hfind]
  rfl

/-- Claim C5 theorem.  When `finish_track` finds a registered track
whose best event is present and the dispatch queue is not full, it
appends exactly that one event (annotated with the movement flag) to
the queue, removes the registry entry for the key, and a second
`finish_track` for the same key returns silently with the state
unchanged and nothing enqueued. -/
theorem c5_finish_enqueues_once (st : FinishState)
    (camera_id track_id : ℤ) (reason : String) (track : Track)
    (best : Event) (hr : pyStrip reason ≠ "")
    (hget : st.registry.get (.int camera_id) track_id = some track)
    (hbest : track.best_event = some best)
    (hfull : st.queueFull = false) :
    ∃ st2, finish_track st camera_id track_id reason = .ok (st2, none) ∧
      st2.queue = st.queue ++ [{ best with movement := track.has_movement }] ∧
      st2.registry.get (.int camera_id) track_id = none ∧
      finish_track st2 camera_id track_id reason = .ok (st2, none) := by
  refine ⟨{ st with
      registry := st.registry.remove (.int camera_id) track_id,
      queue := st.queue ++ [{ best with movement := track.has_movement }] },
    ?_, rfl, registry_get_remove st.registry (.int camera_id) track_id, ?_⟩
  · rw [finish_track]
    simp [hr, hget, hbest, hfull]
  · rw [finish_track]
    simp [hr, registry_get_remove]

/-- A concrete one-track state for the claim C5 witness. -/
def stC5 : FinishState :=
  { registry := [((.int 1, 5),
      { id := 5,
        best_event := some (mkEvent ⟨0, 0, 50, 50⟩ 1 (some (mkRat 3 4)) 5),
        event_count := 2, movement_count := 1, max_events := 300,
        min_movement_pixels := 2, ttl := 3, started_at := 0,
        last_seen_frame_timestamp := some 10 })],
    queue := [], maxsize := 2 }

/-- Witness for claim C5 at the concrete state `stC5`. -/
theorem c5_finish_enqueues_once_witness :
    ∃ st2, finish_track stC5 1 5 "lost_ttl" = .ok (st2, none) ∧
      st2.queue = stC5.queue ++
        [{ mkEvent ⟨0, 0, 50, 50⟩ 1 (some (mkRat 3 4)) 5 with
           movement := true }] ∧
      st2.registry.get (.int 1) 5 = none ∧
      finish_track st2 1 5 "lost_ttl" = .ok (st2, none) := by
  have h := c5_finish_enqueues_once stC5 1 5 "lost_ttl"
    { id := 5,
      best_event := some (mkEvent ⟨0, 0, 50, 50⟩ 1 (some (mkRat 3 4)) 5),
      event_count := 2, movement_count := 1, max_events := 300,
      min_movement_pixels := 2, ttl := 3, started_at := 0,
      last_seen_frame_timestamp := some 10 }
    (mkEvent ⟨0, 0, 50, 50⟩ 1 (some (mkRat 3 4)) 5)
    (by decide) rfl rfl rfl
  simpa using h

/-- Claim C2 counterexample.  At a concrete state whose dispatch queue
is full, `finish_track` drops the best event but the dropped event
still holds its Frame reference (`frame = some frameA`, not absent):
the release step the claim describes does not happen in the source
(it is commented out), and the queue is left unchanged. -/
theorem c2_counterexample :
    ∃ st2 dropped,
      finish_track
        { registry := [((.int 1, 5),
            { id := 5,
              best_event := some (mkEvent ⟨0, 0, 50, 50⟩ 1 (some (mkRat 3 4)) 5),
              event_count := 2, movement_count := 1, max_events := 300,
              min_movement_pixels := 2, ttl := 3, started_at := 0,
              last_seen_frame_timestamp := some 10 })],
          queue := [mkEvent ⟨0, 0, 10, 10⟩ 1 none 9], maxsize := 1 }
        1 5 "lost_ttl" = .ok (st2, some dropped) ∧
      dropped.frame = some frameA ∧
      st2.queue = [mkEvent ⟨0, 0, 10, 10⟩ 1 none 9] :=
  ⟨_, _, rfl, rfl, rfl⟩

/-- Claim C2 theorem (amended).  When `finish_track` finds a present
track with a best event and the dispatch queue is full, the
`queue.Full` raised by `put_nowait` is caught and the event is dropped
silently: the registry entry is removed, the queue is unchanged, and
the dropped event's Frame reference is NOT released — its `frame`
field is exactly the one it had (the release code in that branch is
commented out in the source, and no warning is logged there). -/
theorem c2_finish_queue_full (st : FinishState)
    (camera_id track_id : ℤ) (reason : String) (track : Track)
    (best : Event) (hr : pyStrip reason ≠ "")
    (hget : st.registry.get (.int camera_id) track_id = some track)
    (hbest : track.best_event = some best)
    (hfull : st.queueFull = true) :
    finish_track st camera_id track_id reason =
      .ok ({ st with
              registry := st.registry.remove (.int camera_id) track_id },
           some { best with movement := track.has_movement }) ∧
    ({ best with movement := track.has_movement } : Event).frame =
      best.frame := by
  refine ⟨?_, rfl⟩
  rw [finish_track]
  simp [hr, hget, hbest, hfull]

/-- Witness for amended claim C2 at a concrete full-queue state. -/
theorem c2_finish_queue_full_witness :
    finish_track
      { registry := [((.int 1, 5),
          { id := 5,
            best_event := some (mkEvent ⟨0, 0, 50, 50⟩ 1 (some (mkRat 3 4)) 5),
            event_count := 2, movement_count := 1, max_events := 300,
            min_movement_pixels := 2, ttl := 3, started_at := 0,
            last_seen_frame_timestamp := some 10 })],
        queue := [mkEvent ⟨0, 0, 10, 10⟩ 1 none 9], maxsize := 1 }
      1 5 "lost_ttl" =
    .ok ({ registry := [], queue := [mkEvent ⟨0, 0, 10, 10⟩ 1 none 9],
           maxsize := 1 },
         some { mkEvent ⟨0, 0, 50, 50⟩ 1 (some (mkRat 3 4)) 5 with
                movement := true }) := by
  have h := c2_finish_queue_full
    { registry := [((.int 1, 5),
        { id := 5,
          best_event := some (mkEvent ⟨0, 0, 50, 50⟩ 1 (some (mkRat 3 4)) 5),
          event_count := 2, movement_count := 1, max_events := 300,
          min_movement_pixels := 2, ttl := 3, started_at := 0,
          last_seen_frame_timestamp := some 10 })],
      queue := [mkEvent ⟨0, 0, 10, 10⟩ 1 none 9], maxsize := 1 }
    1 5 "lost_ttl"
    { id := 5,
      best_event := some (mkEvent ⟨0, 0, 50, 50⟩ 1 (some (mkRat 3 4)) 5),
      event_count := 2, movement_count := 1, max_events := 300,
      min_movement_pixels := 2, ttl := 3, started_at := 0,
      last_seen_frame_timestamp := some 10 }
    (mkEvent ⟨0, 0, 50, 50⟩ 1 (some (mkRat 3 4)) 5)
    (by decide) rfl rfl rfl
  simpa using h.1

/-- Modelled from the spec: step 5 of the `add_event` algorithm (§4.2),
absent from the source's `Track.add_event` — the Euclidean distance
between the bbox centers of two consecutive events, to be compared
against `min_movement_pixels`. -/
noncomputable def specCenterDist (b1 b2 : BboxVO) : ℝ :=
  Real.sqrt
    ((((b1.x1 : ℝ) + (b1.x2 : ℝ)) / 2 - ((b2.x1 : ℝ) + (b2.x2 : ℝ)) / 2) ^ 2 +
     (((b1.y1 : ℝ) + (b1.y2 : ℝ)) / 2 - ((b2.y1 : ℝ) + (b2.y2 : ℝ)) / 2) ^ 2)

/-- Claim C1 theorem (evidence for the divergence).  Adding two
unsaturated events whose bbox centers are far more than
`min_movement_pixels` apart leaves `movement_count` at `0` (and hence
`has_movement` false for a two-event track): no branch of the source's
`add_event` ever increments `movement_count`, contradicting both the
claim and the method's own docstring. -/
theorem c1_movement_never_incremented :
    ∃ t0 t2, Track.init 7 300 2 3 0 = .ok t0 ∧
      t0.addEvents [mkEvent ⟨100, 100, 200, 200⟩ 1 (some 1),
                    mkEvent ⟨300, 300, 400, 400⟩ 1 (some 1)] = some t2 ∧
      t2.movement_count = 0 ∧ t2.event_count = 2 ∧
      t2.has_movement = false ∧
      (t0.min_movement_pixels : ℝ) <
        specCenterDist ⟨100, 100, 200, 200⟩ ⟨300, 300, 400, 400⟩ := by
  refine ⟨_, _, rfl, rfl, rfl, rfl, rfl, ?_⟩
  have h2 : ((Track.init 7 300 2 3 0).toOption.map
      Track.min_movement_pixels) = some 2 := rfl
  rw [specCenterDist]
  show ((2 : ℚ) : ℝ) < _
  rw [Rat.cast_ofNat]
  rw [Real.lt_sqrt (by norm_num)]
  norm_num

/-- Case analysis of a successful `add_event` call: the saturated
branch, the first-event branch, and the subsequent-event branch with
its two best-event outcomes. -/
theorem add_event_cases (t t1 : Track) (e : Event)
    (h : t.add_event e = some t1) :
    (t1.best_event = t.best_event ∧ t1.event_count = t.event_count ∧
      t.max_events ≤ t.event_count) ∨
    (t1.best_event = some e ∧ t1.event_count = 1 ∧ t.event_count = 0 ∧
      ¬t.max_events ≤ t.event_count) ∨
    (t1.event_count = t.event_count + 1 ∧ t.event_count ≠ 0 ∧
      ¬t.max_events ≤ t.event_count ∧
      ((t1.best_event = some e ∧
         ∀ b, t.best_event = some b → b.quality ≤ e.quality) ∨
       (∃ b, t.best_event = some b ∧ t1.best_event = some b ∧
         e.quality ≤ b.quality))) := by
  simp only [Track.add_event] at h
  split at h
  · exact absurd h (by simp)
  split at h
  · rename_i hsat
    obtain rfl := Option.some.inj h
    exact Or.inl ⟨rfl, rfl, by simpa using hsat⟩
  rename_i hsat
  split at h
  · rename_i hemp
    obtain rfl := Option.some.inj h
    exact Or.inr (Or.inl ⟨rfl, rfl, by simpa [Track.is_empty] using hemp,
      by simpa using hsat⟩)
  rename_i hemp
  split at h
  · rename_i hbest
    obtain rfl := Option.some.inj h
    refine Or.inr (Or.inr ⟨rfl, by simpa [Track.is_empty] using hemp,
      by simpa using hsat, Or.inl ⟨rfl, ?_⟩⟩)
    intro b hb
    have hnone : t.best_event = none := by simpa using hbest
    rw [hnone] at hb
    simp at hb
  · rename_i b hbest
    have hbt : t.best_event = some b := by simpa using hbest
    split at h
    · rename_i hlt
      obtain rfl := Option.some.inj h
      refine Or.inr (Or.inr ⟨rfl, by simpa [Track.is_empty] using hemp,
        by simpa using hsat, Or.inl ⟨rfl, ?_⟩⟩)
      intro b2 hb2
      rw [hbt] at hb2
      obtain rfl := Option.some.inj hb2
      exact le_of_lt hlt
    · rename_i hnlt
      obtain rfl := Option.some.inj h
      exact Or.inr (Or.inr ⟨rfl, by simpa [Track.is_empty] using hemp,
        by simpa using hsat, Or.inr ⟨b, hbt, hbt, le_of_not_lt hnlt⟩⟩)

/-- Adding an event never makes `event_count` negative. -/
theorem add_event_count_nonneg (t t1 : Track) (e : Event)
    (hc : 0 ≤ t.event_count) (h : t.add_event e = some t1) :
    0 ≤ t1.event_count := by
  rcases add_event_cases t t1 e h with ⟨-, hcnt, -⟩ |
    ⟨-, hcnt, -, -⟩ | ⟨hcnt, -, -, -⟩ <;> omega

/-- Adding an event to a track that already holds a best event (and at
least one counted event) keeps a best event of at least the same
quality. -/
theorem add_event_best_mono (t t1 : Track) (e b : Event)
    (hb : t.best_event = some b) (hc : 0 < t.event_count)
    (h : t.add_event e = some t1) :
    ∃ b1, t1.best_event = some b1 ∧ b.quality ≤ b1.quality ∧
      0 < t1.event_count := by
  rcases add_event_cases t t1 e h with ⟨hbe, hcnt, -⟩ |
    ⟨-, -, hzero, -⟩ |
    ⟨hcnt, -, -, ⟨hbe, hq⟩ | ⟨b2, hb2, hbe, hq⟩⟩
  · exact ⟨b, hbe.trans hb, le_refl _, by omega⟩
  · omega
  · exact ⟨e, hbe, hq b hb, by omega⟩
  · rw [hb] at hb2
    obtain rfl := Option.some.inj hb2
    exact ⟨b, hbe, le_refl _, by omega⟩

/-- Adding an event to an unsaturated track yields a best event of at
least the new event's quality. -/
theorem add_event_dominates (t t1 : Track) (e : Event)
    (hc : 0 ≤ t.event_count) (hunsat : t.event_count < t.max_events)
    (h : t.add_event e = some t1) :
    ∃ b1, t1.best_event = some b1 ∧ e.quality ≤ b1.quality ∧
      0 < t1.event_count := by
  rcases add_event_cases t t1 e h with ⟨-, -, hsat⟩ |
    ⟨hbe, hcnt, -, -⟩ |
    ⟨hcnt, -, -, ⟨hbe, -⟩ | ⟨b2, -, hbe, hq⟩⟩
  · omega
  · exact ⟨e, hbe, le_refl _, by omega⟩
  · exact ⟨e, hbe, le_refl _, by omega⟩
  · exact ⟨b2, hbe, hq, by omega⟩

/-- Folding `add_event` preserves a best event of at least a given
quality. -/
theorem addEvents_best_mono (es : List Event) (t t1 : Track) (b : Event)
    (hb : t.best_event = some b) (hc : 0 < t.event_count)
    (h : t.addEvents es = some t1) :
    ∃ b1, t1.best_event = some b1 ∧ b.quality ≤ b1.quality ∧
      0 < t1.event_count := by
  induction es generalizing t b with
  | nil =>
    rw [Track.addEvents] at h
    obtain rfl := Option.some.inj h
    exact ⟨b, hb, le_refl _, hc⟩
  | cons e es ih =>
    rw [Track.addEvents] at h
    cases hstep : t.add_event e with
    | none => rw [hstep] at h; exact absurd h (by simp)
    | some tmid =>
      rw [hstep, Option.some_bind] at h
      obtain ⟨bm, hbm, hqm, hcm⟩ := add_event_best_mono t tmid e b hb hc hstep
      obtain ⟨b1, hb1, hq1, hc1⟩ := ih tmid bm hbm hcm h
      exact ⟨b1, hb1, le_trans hqm hq1, hc1⟩

/-- The events that a fold of `add_event` over a list actually counts:
the ones passed to `add_event` while the track was not yet saturated. -/
inductive CountedIn : Track → List Event → Event → Prop
  | head {t : Track} {e : Event} {es : List Event} :
      t.event_count < t.max_events → CountedIn t (e :: es) e
  | tail {t t1 : Track} {e x : Event} {es : List Event} :
      t.add_event e = some t1 → CountedIn t1 es x →
      CountedIn t (e :: es) x

/-- After a successful fold, the best event dominates every counted
event. -/
theorem addEvents_counted (es : List Event) (t t1 : Track) (x : Event)
    (hc : 0 ≤ t.event_count) (h : t.addEvents es = some t1)
    (hx : CountedIn t es x) :
    ∃ b, t1.best_event = some b ∧ x.quality ≤ b.quality := by
  induction es generalizing t with
  | nil => cases hx
  | cons e es ih =>
    rw [Track.addEvents] at h
    cases hstep : t.add_event e with
    | none => rw [hstep] at h; exact absurd h (by simp)
    | some tmid =>
      rw [hstep, Option.some_bind] at h
      cases hx with
      | head hunsat =>
        obtain ⟨bm, hbm, hqm, hcm⟩ :=
          add_event_dominates t tmid _ hc hunsat hstep
        obtain ⟨b1, hb1, hq1, -⟩ :=
          addEvents_best_mono es tmid t1 bm hbm hcm h
        exact ⟨b1, hb1, le_trans hqm hq1⟩
      | tail hstepx hx1 =>
        obtain rfl := Option.some.inj (hstep.symm.trans hstepx)
        exact ih tmid (add_event_count_nonneg t tmid e hc hstep) h hx1

/-- Adding an event preserves the invariant that a nonempty track has a
best event. -/
theorem add_event_best_some (t t1 : Track) (e : Event)
    (hinv : 1 ≤ t.event_count → t.best_event ≠ none)
    (h : t.add_event e = some t1) :
    1 ≤ t1.event_count → t1.best_event ≠ none := by
  rcases add_event_cases t t1 e h with ⟨hbe, hcnt, -⟩ |
    ⟨hbe, -, -, -⟩ |
    ⟨hcnt, hnz, -, ⟨hbe, -⟩ | ⟨b2, -, hbe, -⟩⟩
  · intro h1
    rw [hbe]
    exact hinv (by omega)
  · intro _
    rw [hbe]
    simp
  · intro _
    rw [hbe]
    simp
  · intro _
    rw [hbe]
    simp

/-- Folding `add_event` preserves the nonempty-implies-best invariant
(together with nonnegativity of the counter). -/
theorem addEvents_best_some (es : List Event) (t t1 : Track)
    (hc : 0 ≤ t.event_count)
    (hinv : 1 ≤ t.event_count → t.best_event ≠ none)
    (h : t.addEvents es = some t1) :
    1 ≤ t1.event_count → t1.best_event ≠ none := by
  induction es generalizing t with
  | nil =>
    rw [Track.addEvents] at h
    obtain rfl := Option.some.inj h
    exact hinv
  | cons e es ih =>
    rw [Track.addEvents] at h
    cases hstep : t.add_event e with
    | none => rw [hstep] at h; exact absurd h (by simp)
    | some tmid =>
      rw [hstep, Option.some_bind] at h
      exact ih tmid (add_event_count_nonneg t tmid e hc hstep)
        (add_event_best_some t tmid e hinv hstep) h

/-- Claim C3 counterexample.  With `max_events = 1`, a higher-quality
event passed to `add_event` after saturation is ignored, so the claim's
quantification over every event ever passed to `add_event` fails: the
retained best event has strictly lower quality than the ignored one. -/
theorem c3_counterexample :
    ∃ t0 t2, Track.init 7 1 2 3 0 = .ok t0 ∧
      t0.addEvents [mkEvent ⟨0, 0, 50, 50⟩ 1 (some (mkRat 1 2)),
                    mkEvent ⟨0, 0, 50, 50⟩ 1 (some (mkRat 9 10))] = some t2 ∧
      ∃ b, t2.best_event = some b ∧
        b.quality < (mkEvent ⟨0, 0, 50, 50⟩ 1 (some (mkRat 9 10))).quality :=
  ⟨_, _, rfl, rfl, _, rfl, by decide⟩

/-- Claim C3 theorem (amended).  For a track built by `Track.__init__`
and any successful sequence of `add_event` calls: when `event_count ≥
1` a best event is present, and its quality dominates the quality of
every event that `add_event` was given while the track was not yet
saturated (events passed after saturation are ignored and not
covered). -/
theorem c3_best_dominates (id maxEvents : ℤ) (minMove : ℚ)
    (ttlArg : ℤ) (now : ℚ) (t0 t1 : Track) (es : List Event)
    (hinit : Track.init id maxEvents minMove ttlArg now = .ok t0)
    (h : t0.addEvents es = some t1) :
    (1 ≤ t1.event_count → t1.best_event ≠ none) ∧
    (∀ x, CountedIn t0 es x →
      ∃ b, t1.best_event = some b ∧ x.quality ≤ b.quality) := by
  have ht0 : t0.event_count = 0 ∧ t0.best_event = none := by
    rw [Track.init] at hinit
    split at hinit
    · exact absurd hinit (by simp)
    split at hinit
    · exact absurd hinit (by simp)
    split at hinit
    · exact absurd hinit (by simp)
    obtain rfl := Except.ok.inj hinit
    exact ⟨rfl, rfl⟩
  constructor
  · exact addEvents_best_some es t0 t1 (by omega)
      (fun h1 => absurd h1 (by omega)) h
  · intro x hx
    exact addEvents_counted es t0 t1 x (by omega) h hx

/-- Witness for amended claim C3: on a fresh track with `max_events =
300`, both concrete events are counted and the final best event
dominates the higher-quality second event. -/
theorem c3_best_dominates_witness :
    ∃ t1, Track.addEvents
        { id := 7, max_events := 300, min_movement_pixels := 2, ttl := 3,
          started_at := 0 }
        [mkEvent ⟨0, 0, 50, 50⟩ 1 (some (mkRat 1 2)),
         mkEvent ⟨0, 0, 50, 50⟩ 1 (some (mkRat 9 10))] = some t1 ∧
      ∃ b, t1.best_event = some b ∧
        (mkEvent ⟨0, 0, 50, 50⟩ 1 (some (mkRat 9 10))).quality ≤
          b.quality := by
  refine ⟨_, rfl, ?_⟩
  exact (c3_best_dominates 7 300 2 3 0
      { id := 7, max_events := 300, min_movement_pixels := 2, ttl := 3,
        started_at := 0 } _
      [mkEvent ⟨0, 0, 50, 50⟩ 1 (some (mkRat 1 2)),
       mkEvent ⟨0, 0, 50, 50⟩ 1 (some (mkRat 9 10))] rfl rfl).2
    (mkEvent ⟨0, 0, 50, 50⟩ 1 (some (mkRat 9 10)))
    (CountedIn.tail rfl (CountedIn.head (by decide)))


open FrontalFaceScoreService

/-- The symmetry sub-score lies in `[0, 1]` whenever the scale is
nonnegative (it always is: a square root). -/
theorem calculate_symmetry_mem (x_le x_re x_n : ℚ) (d : ℝ) (hd : 0 ≤ d) :
    0 ≤ calculate_symmetry x_le x_re x_n d ∧
      calculate_symmetry x_le x_re x_n d ≤ 1 := by
  simp only [calculate_symmetry]
  refine ⟨le_max_left _ _, max_le (by norm_num) ?_⟩
  have h := div_nonneg (abs_nonneg ((x_n : ℝ) - ((x_le : ℝ) + (x_re : ℝ)) / 2)) hd
  linarith

/-- The roll sub-score lies in `[0, 1]` for a nonnegative scale. -/
theorem calculate_roll_mem (y_le y_re : ℚ) (d : ℝ) (hd : 0 ≤ d) :
    0 ≤ calculate_roll y_le y_re d ∧ calculate_roll y_le y_re d ≤ 1 := by
  simp only [calculate_roll]
  refine ⟨le_max_left _ _, max_le (by norm_num) ?_⟩
  have h := div_nonneg (abs_nonneg ((y_le : ℝ) - (y_re : ℝ))) hd
  linarith

/-- The mouth-symmetry sub-score lies in `[0, 1]` for a nonnegative
scale. -/
theorem calculate_mouth_symmetry_mem (x_lm x_rm x_n : ℚ) (d : ℝ)
    (hd : 0 ≤ d) :
    0 ≤ calculate_mouth_symmetry x_lm x_rm x_n d ∧
      calculate_mouth_symmetry x_lm x_rm x_n d ≤ 1 := by
  simp only [calculate_mouth_symmetry]
  refine ⟨le_max_left _ _, max_le (by norm_num) ?_⟩
  have h := div_nonneg (abs_nonneg (((x_lm : ℝ) + (x_rm : ℝ)) / 2 - (x_n : ℝ))) hd
  linarith

/-- The vertical sub-score is bounded above by `1` — but, unlike the
other three, it has no lower bound: its first branch divides a possibly
negative ratio by `VERTICAL_RATIO_MIN` without clamping. -/
theorem calculate_vertical_le_one (y_n y_lm y_rm : ℚ) (d : ℝ) :
    calculate_vertical y_n y_lm y_rm d ≤ 1 := by
  simp only [calculate_vertical, VERTICAL_RATIO_MIN, VERTICAL_RATIO_MAX]
  split
  · rename_i hlt
    rw [div_le_one (by norm_num)]
    linarith
  split
  · rename_i hgt
    refine max_le (by norm_num) ?_
    linarith
  · exact le_refl 1

/-- Rounding to three decimals preserves membership in `[0, 1]`. -/
theorem round3_mem (x : ℝ) (h0 : 0 ≤ x) (h1 : x ≤ 1) :
    0 ≤ round3 x ∧ round3 x ≤ 1 := by
  constructor
  · rw [round3]
    apply div_nonneg _ (by norm_num)
    have hz : (0 : ℤ) ≤ round (1000 * x) := by
      rw [round_eq]
      refine Int.le_floor.mpr ?_
      push_cast
      linarith
    exact_mod_cast hz
  · rw [round3, div_le_one (by norm_num)]
    have hz : round (1000 * x) ≤ (1000 : ℤ) := by
      rw [round_eq]
      refine (Int.floor_le_iff).mpr ?_
      push_cast
      linarith
    exact_mod_cast hz

/-- Claim C4 theorem (amended).  The scorer returns `0.0` whenever the
eye distance is below `1e-6`, the symmetry, roll and mouth-symmetry
sub-scores each lie in `[0, 1]`, the vertical sub-score is at most `1`
(but not bounded below by `0`), and the final weighted, clamped,
rounded result always lies in `[0, 1]` — it can, however, be `0.0`
even for landmarks with eye distance `≥ 1e-6` (see the
counterexample). -/
theorem c4_scorer_properties (l : FaceLandmarksVO) :
    (eye_dist l < 1e-6 → calculate l = 0) ∧
    (0 ≤ calculate_symmetry l.left_eye.1 l.right_eye.1 l.nose.1
        (eye_dist l) ∧
      calculate_symmetry l.left_eye.1 l.right_eye.1 l.nose.1
        (eye_dist l) ≤ 1) ∧
    (0 ≤ calculate_roll l.left_eye.2.1 l.right_eye.2.1 (eye_dist l) ∧
      calculate_roll l.left_eye.2.1 l.right_eye.2.1 (eye_dist l) ≤ 1) ∧
    (0 ≤ calculate_mouth_symmetry l.left_mouth.1 l.right_mouth.1 l.nose.1
        (eye_dist l) ∧
      calculate_mouth_symmetry l.left_mouth.1 l.right_mouth.1 l.nose.1
        (eye_dist l) ≤ 1) ∧
    calculate_vertical l.nose.2.1 l.left_mouth.2.1 l.right_mouth.2.1
      (eye_dist l) ≤ 1 ∧
    (0 ≤ calculate l ∧ calculate l ≤ 1) := by
  have hd : 0 ≤ eye_dist l := Real.sqrt_nonneg _
  refine ⟨?_, calculate_symmetry_mem _ _ _ _ hd,
    calculate_roll_mem _ _ _ hd, calculate_mouth_symmetry_mem _ _ _ _ hd,
    calculate_vertical_le_one _ _ _ _, ?_⟩
  · intro hsmall
    rw [calculate, if_pos hsmall]
  · rw [calculate]
    split
    · norm_num
    · refine round3_mem _ (le_max_left _ _) (max_le (by norm_num) ?_)
      exact min_le_left _ _


/-- Landmarks with eye distance `2` (well above `1e-6`) whose mouth
corners lie far above the nose, driving the vertical sub-score very
negative. -/
def lmkBad : FaceLandmarksVO :=
  { left_eye := (0, 0, 1), right_eye := (2, 0, 1), nose := (1, 200, 1),
    left_mouth := (1, 0, 1), right_mouth := (1, 0, 1) }

/-- Claim C4 counterexample: `lmkBad` has eye distance `2 ≥ 1e-6`, yet
the scorer returns `0.0` — the unclamped negative vertical sub-score
drags the weighted sum below zero, which the final clamp turns into
`0.0`.  This refutes the claimed "returns 0.0 only if eye distance
< 1e-6" direction and the claim that all four sub-scores are in
`[0, 1]`. -/
theorem c4_counterexample :
    calculate lmkBad = 0 ∧ ¬(eye_dist lmkBad < 1e-6) := by
  have hd : eye_dist lmkBad = 2 := by
    have h4 : eye_dist lmkBad = Real.sqrt 4 := by
      rw [eye_dist, calculate_distance]
      norm_num [lmkBad]
    rw [h4, show (4 : ℝ) = 2 ^ 2 by norm_num,
      Real.sqrt_sq (by norm_num : (0:ℝ) ≤ 2)]
  constructor
  · simp only [calculate]
    rw [hd, if_neg (by norm_num)]
    simp only [lmkBad]
    have hsym : calculate_symmetry 0 2 1 2 = 1 := by
      simp only [calculate_symmetry]
      norm_num
    have hroll : calculate_roll 0 0 2 = 1 := by
      simp only [calculate_roll]
      norm_num
    have hvert : calculate_vertical 200 0 0 2 = -(2000 / 7) := by
      simp only [calculate_vertical, VERTICAL_RATIO_MIN, VERTICAL_RATIO_MAX]
      rw [if_pos (by norm_num)]
      norm_num
    have hmouth : calculate_mouth_symmetry 1 1 1 2 = 1 := by
      simp only [calculate_mouth_symmetry]
      norm_num
    rw [hsym, hroll, hvert, hmouth]
    have harith :
        (0.35 * 1 + 0.25 * 1 + 0.20 * (-(2000 / 7)) + 0.20 * 1 : ℝ) =
          -(1972 / 35) := by norm_num
    rw [harith, min_eq_right (by norm_num : (-(1972 / 35) : ℝ) ≤ 1),
      max_eq_left (by norm_num : (-(1972 / 35) : ℝ) ≤ 0), round3]
    norm_num
  · rw [hd]
    norm_num

/-- Degenerate landmarks with coincident eyes, used to exercise the
early-return branch of the scorer. -/
def lmkZero : FaceLandmarksVO :=
  { left_eye := (0, 0, 1), right_eye := (0, 0, 1), nose := (0, 0, 1),
    left_mouth := (0, 0, 1), right_mouth := (0, 0, 1) }

/-- Witness for amended claim C4: coincident eyes give eye distance
`0 < 1e-6` and the scorer returns `0.0` through the early branch. -/
theorem c4_scorer_properties_witness :
    eye_dist lmkZero < 1e-6 ∧ calculate lmkZero = 0 := by
  have hd : eye_dist lmkZero = 0 := by
    rw [eye_dist, calculate_distance]
    norm_num [lmkZero, Real.sqrt_zero]
  exact ⟨by rw [hd]; norm_num,
    (c4_scorer_properties lmkZero).1 (by rw [hd]; norm_num)⟩
